import Mathlib

/-!
Verification of the ILS_sims radio-navigation simulations.

The Python sources (`DME.py`, `VOR.py`, `localizer.py`, `glideslope.py`) are
shallowly embedded below: floating-point arithmetic is modelled by real
arithmetic, `math.hypot`/`math.tan`/`math.tanh` by the corresponding Mathlib
functions, and the mutable DME scheduler by explicit state passing over a
`SimState` record.
-/

noncomputable section

namespace ILSsims

/-! ### Shared facts about `Real.tanh`

Mathlib 4.14 provides `tanh_zero`, `tanh_neg` and `tanh_eq_sinh_div_cosh`;
the bounds and strict monotonicity used by the lobe-strength claims are
derived here from `sinh`/`cosh` facts. -/

theorem tanh_lt_one (x : ℝ) : Real.tanh x < 1 := by
  rw [Real.tanh_eq_sinh_div_cosh, div_lt_one (Real.cosh_pos x)]
  exact Real.sinh_lt_cosh x

theorem neg_one_lt_tanh (x : ℝ) : -1 < Real.tanh x := by
  rw [Real.tanh_eq_sinh_div_cosh, lt_div_iff (Real.cosh_pos x)]
  have h := Real.cosh_add_sinh x
  have hx := Real.exp_pos x
  nlinarith

theorem tanh_strictMono : StrictMono Real.tanh := by
  intro a b hab
  rw [Real.tanh_eq_sinh_div_cosh, Real.tanh_eq_sinh_div_cosh,
    div_lt_div_iff (Real.cosh_pos a) (Real.cosh_pos b)]
  have hs : Real.sinh (b - a) = Real.sinh b * Real.cosh a - Real.cosh b * Real.sinh a :=
    Real.sinh_sub b a
  have hpos : 0 < Real.sinh (b - a) := Real.sinh_pos_iff.mpr (by linarith)
  nlinarith

theorem tanh_nonneg {x : ℝ} (hx : 0 ≤ x) : 0 ≤ Real.tanh x := by
  rcases eq_or_lt_of_le hx with h | h
  · simp [← h, Real.tanh_zero]
  · exact le_of_lt (by simpa [Real.tanh_zero] using tanh_strictMono h)

theorem abs_tanh (x : ℝ) : |Real.tanh x| = Real.tanh |x| := by
  rcases le_total 0 x with hx | hx
  · rw [abs_of_nonneg hx, abs_of_nonneg (tanh_nonneg hx)]
  · have h1 : Real.tanh x ≤ 0 := by
      have h2 := tanh_nonneg (neg_nonneg.mpr hx)
      rw [Real.tanh_neg] at h2
      linarith
    rw [abs_of_nonpos hx, Real.tanh_neg, abs_of_nonpos h1]

/-! ### Localizer (`localizer.py`) -/

namespace Localizer

def RUNWAY_X : ℝ := 400

def RUNWAY_Y : ℝ := 100

def ANGLE_CENTER : ℝ := Real.pi / 180 * 0.0

def ANGLE_LEFT : ℝ := Real.pi / 180 * 10.0

def ANGLE_RIGHT : ℝ := Real.pi / 180 * (-10.0)

def TRANSITION_SCALE : ℝ := 20.0

/-- Embedding of `localizer_x(y, angle)`: the x-position of the line through
`(RUNWAY_X, RUNWAY_Y)` with slope `angle`. -/
def localizer_x (y angle : ℝ) : ℝ :=
  RUNWAY_X - Real.tan angle * (RUNWAY_Y - y)

def x_left_line (y : ℝ) : ℝ := localizer_x y ANGLE_LEFT

def x_center_line (y : ℝ) : ℝ := localizer_x y ANGLE_CENTER

def x_right_line (y : ℝ) : ℝ := localizer_x y ANGLE_RIGHT

/-- Embedding of `localizer_90_strength(px, py)`:
`0.5 + 0.5*tanh(-dist/TRANSITION_SCALE)` with `dist = px - x_center_line(py)`. -/
def localizer_90_strength (px py : ℝ) : ℝ :=
  0.5 + 0.5 * Real.tanh (-(px - x_center_line py) / TRANSITION_SCALE)

/-- Embedding of `localizer_150_strength(px, py)`:
`0.5 + 0.5*tanh(dist/TRANSITION_SCALE)`. -/
def localizer_150_strength (px py : ℝ) : ℝ :=
  0.5 + 0.5 * Real.tanh ((px - x_center_line py) / TRANSITION_SCALE)

/-- Embedding of `localizer_diff(px, py) = localizer_90_strength - localizer_150_strength`. -/
def localizer_diff (px py : ℝ) : ℝ :=
  localizer_90_strength px py - localizer_150_strength px py

/-- Embedding of the clamp in `draw_localizer_dial`: `d = max(-1.0, min(1.0, diff))`. -/
def clamp_deflection (diff : ℝ) : ℝ := max (-1.0) (min 1.0 diff)

/-- Embedding of the `ratio = s150 / (s90 + 1e-6)` computation in
`draw_background_lobes`. -/
def localizer_ratio (x y : ℝ) : ℝ :=
  localizer_150_strength x y / (localizer_90_strength x y + 1e-6)

/-- The body of `localizer_90_strength` with the module constant
`TRANSITION_SCALE` generalized to a parameter `scale`, used to state the
configuration-validation claim; `localizer_90_strength` is this function
applied to the fixed literal. -/
def localizer_90_strength_scale (scale px py : ℝ) : ℝ :=
  0.5 + 0.5 * Real.tanh (-(px - x_center_line py) / scale)

theorem localizer_90_strength_eq_scale (px py : ℝ) :
    localizer_90_strength px py = localizer_90_strength_scale TRANSITION_SCALE px py := rfl

theorem x_center_line_eq (y : ℝ) : x_center_line y = 400 := by
  have h : ANGLE_CENTER = 0 := by norm_num [ANGLE_CENTER]
  simp [x_center_line, localizer_x, h, Real.tan_zero, RUNWAY_X]

end Localizer

/-! ### Glideslope (`glideslope.py`) -/

namespace Glideslope

def RUNWAY_X : ℝ := 700

def RUNWAY_Y : ℝ := 500

def ANGLE_MIDDLE : ℝ := Real.pi / 180 * 9.0

def ANGLE_TOP : ℝ := Real.pi / 180 * 15.0

def ANGLE_BOTTOM : ℝ := Real.pi / 180 * 3.0

def TRANSITION_SCALE : ℝ := 20.0

/-- Embedding of `line_y(x, angle)`: the y-position of the line through
`(RUNWAY_X, RUNWAY_Y)` with slope `angle`. -/
def line_y (x angle : ℝ) : ℝ :=
  RUNWAY_Y - Real.tan angle * (RUNWAY_X - x)

def y_top_line (x : ℝ) : ℝ := line_y x ANGLE_TOP

def y_middle_line (x : ℝ) : ℝ := line_y x ANGLE_MIDDLE

def y_bottom_line (x : ℝ) : ℝ := line_y x ANGLE_BOTTOM

/-- Embedding of `signal_strength_90hz(px, py)`:
`0.5 + 0.5*tanh(-dist/TRANSITION_SCALE)` with `dist = py - y_middle_line(px)`. -/
def signal_strength_90hz (px py : ℝ) : ℝ :=
  0.5 + 0.5 * Real.tanh (-(py - y_middle_line px) / TRANSITION_SCALE)

/-- Embedding of `signal_strength_150hz(px, py)`:
`0.5 + 0.5*tanh(dist/TRANSITION_SCALE)`. -/
def signal_strength_150hz (px py : ℝ) : ℝ :=
  0.5 + 0.5 * Real.tanh ((py - y_middle_line px) / TRANSITION_SCALE)

/-- Embedding of `glideslope_diff(px, py) = signal_strength_90hz - signal_strength_150hz`. -/
def glideslope_diff (px py : ℝ) : ℝ :=
  signal_strength_90hz px py - signal_strength_150hz px py

/-- Embedding of the clamp in `draw_glideslope_dial`: `d = max(-1.0, min(1.0, diff))`. -/
def clamp_deflection (diff : ℝ) : ℝ := max (-1.0) (min 1.0 diff)

/-- Embedding of the `ratio = s150 / (s90 + 1e-6)` computation in
`draw_background`. -/
def glideslope_ratio (x y : ℝ) : ℝ :=
  signal_strength_150hz x y / (signal_strength_90hz x y + 1e-6)

theorem y_middle_line_at_threshold : y_middle_line 700 = 500 := by
  simp [y_middle_line, line_y, RUNWAY_X, RUNWAY_Y]

end Glideslope

/-! ### DME (`DME.py`) -/

namespace DME

def DME_X : ℝ := 600

def DME_Y : ℝ := 300

def MICROSECS_PER_MILE_ROUNDTRIP : ℝ := 5.37

def DME_REPLY_DELAY_US : ℝ := 50.0

def PING_INTERVAL : ℝ := 3.0

/-- Embedding of `actual_distance_miles(px, py, dx, dy) = math.hypot(px-dx, py-dy)`. -/
def actual_distance_miles (px py dx dy : ℝ) : ℝ :=
  Real.sqrt ((px - dx) ^ 2 + (py - dy) ^ 2)

/-- The body of `dme_measure_distance` with the module constant
`DME_REPLY_DELAY_US` generalized to a parameter `reply_delay`; the four
intermediate steps (ideal round trip, station adds the delay, plane subtracts
it, conversion back to distance) mirror the source line by line. -/
def dme_measure_distance_delay (reply_delay px py dx dy : ℝ) : ℝ :=
  let d := actual_distance_miles px py dx dy
  let ideal_rtt := 2.0 * d * MICROSECS_PER_MILE_ROUNDTRIP
  let total_rtt := ideal_rtt + reply_delay
  let plane_time := total_rtt - reply_delay
  plane_time / (2.0 * MICROSECS_PER_MILE_ROUNDTRIP)

/-- Embedding of `dme_measure_distance(px, py, dx, dy)` with the source's
fixed 50 us reply delay. -/
def dme_measure_distance (px py dx dy : ℝ) : ℝ :=
  dme_measure_distance_delay DME_REPLY_DELAY_US px py dx dy

/-- The mutable module-level DME state: `last_measured_distance`,
`last_ping_time` and `time_of_next_ping`. -/
structure SimState where
  last_measured_distance : ℝ
  last_ping_time : ℝ
  time_of_next_ping : ℝ

/-- The initial values of the module-level state:
`last_measured_distance = 0.0`, `last_ping_time = 0.0`,
`time_of_next_ping = PING_INTERVAL`. -/
def initState : SimState :=
  { last_measured_distance := 0.0
    last_ping_time := 0.0
    time_of_next_ping := PING_INTERVAL }

open Classical in
/-- Embedding of the per-frame scheduler block in the main loop:
`if current_time >= time_of_next_ping:` perform a measurement, record the
ping time, and advance `time_of_next_ping` by `PING_INTERVAL`; otherwise the
state is untouched. -/
def tick (s : SimState) (current_time plane_x plane_y : ℝ) : SimState :=
  if s.time_of_next_ping ≤ current_time then
    { last_measured_distance := dme_measure_distance plane_x plane_y DME_X DME_Y
      last_ping_time := current_time
      time_of_next_ping := s.time_of_next_ping + PING_INTERVAL }
  else s

end DME

/-! ### VOR (`VOR.py`)

The script builds two phase-locked 30 Hz tones sampled at 1000 Hz for one
second, extracts each tone's instantaneous phase with
`np.angle(scipy.signal.hilbert(.))`, unwraps it with `np.unwrap`, averages
the per-sample phase difference and wraps the result into `[0, 360)`.

`scipy.signal.hilbert` and `np.angle` are library calls with no source in
this repository; for a pure sinusoid `sin θ(t)` the analytic signal they
compute approximates `sin θ - i·cos θ = -i·exp(i·θ)`, whose argument is the
instantaneous phase `θ - π/2` wrapped into `(-π, π]`.  `analyticAngle` below
embeds that ideal per-sample output; `unwrap` embeds `np.unwrap` exactly
(each successive difference is wrapped into `(-π, π]` before being
re-accumulated). -/

namespace VOR

def fs : ℝ := 1000

def duration : ℝ := 1.0

/-- Sample count `int(fs*duration) = 1000` of `np.linspace(0, duration, ., endpoint=False)`. -/
def numSamples : ℕ := 1000

/-- Sample times of `np.linspace(0, duration, 1000, endpoint=False)`: step `duration/1000`. -/
def t (n : ℕ) : ℝ := duration * n / numSamples

def f_mod : ℝ := 30

/-- Embedding of `np.deg2rad`. -/
def deg2rad (x : ℝ) : ℝ := x * Real.pi / 180

/-- Embedding of `np.rad2deg`. -/
def rad2deg (x : ℝ) : ℝ := x * 180 / Real.pi

/-- Wrap an angle into the interval `(-π, π]`, as `np.angle` does. -/
def wrapToPi (x : ℝ) : ℝ :=
  x - 2 * Real.pi * ⌈x / (2 * Real.pi) - 1 / 2⌉

/-- Ideal per-sample output of `np.angle(hilbert(sin θ))`: the instantaneous
phase `θ - π/2` wrapped into `(-π, π]` (see the section comment). -/
def analyticAngle (θ : ℝ) : ℝ := wrapToPi (θ - Real.pi / 2)

/-- Wrapped instantaneous phase of `ref_signal = sin(2π f_mod t)`. -/
def ref_angle (n : ℕ) : ℝ := analyticAngle (2 * Real.pi * f_mod * t n)

/-- Wrapped instantaneous phase of
`var_signal = sin(2π f_mod t + az)`; the source fixes
`az = deg2rad(true_azimuth_deg)` with `true_azimuth_deg = 45`, generalized
here so the round-trip can be stated for each bearing of interest. -/
def var_angle (az : ℝ) (n : ℕ) : ℝ := analyticAngle (2 * Real.pi * f_mod * t n + az)

/-- Embedding of `np.unwrap`: the first sample is kept, and each successive
difference is wrapped into `(-π, π]` before being re-accumulated. -/
def unwrap (x : ℕ → ℝ) : ℕ → ℝ
  | 0 => x 0
  | n + 1 => unwrap x n + wrapToPi (x (n + 1) - x n)

/-- Embedding of the numpy float modulo `a % m = a - m*floor(a/m)`. -/
def fmod (x y : ℝ) : ℝ := x - y * ⌊x / y⌋

/-- Embedding of the decoding tail of the script, parameterized by the two
per-sample wrapped phase sequences (the `np.angle(hilbert(.))` outputs) and
the common sample count: unwrap both, form the per-sample difference
`var_phase - ref_phase`, take its mean, convert to degrees, wrap into
`[0, 360)` via the modulo. -/
def decode (refA varA : ℕ → ℝ) (N : ℕ) : ℝ :=
  fmod (rad2deg ((∑ n ∈ Finset.range N, (unwrap varA n - unwrap refA n)) / N)) 360

/-- Embedding of `computed_azimuth_deg` for a true azimuth of
`az_deg` degrees (the source fixes `az_deg = 45`): the full
encode/extract/unwrap/mean/convert/wrap pipeline. -/
def computed_azimuth_deg (az_deg : ℝ) : ℝ :=
  decode ref_angle (var_angle (deg2rad az_deg)) numSamples

end VOR

/-! ### Shared lemmas about the deviation functions -/

theorem strength_bounds (u : ℝ) :
    0 < 0.5 + 0.5 * Real.tanh u ∧ 0.5 + 0.5 * Real.tanh u < 1 := by
  have h1 := neg_one_lt_tanh u
  have h2 := tanh_lt_one u
  constructor <;> nlinarith

theorem localizer_diff_eq (px py : ℝ) :
    Localizer.localizer_diff px py
      = -Real.tanh ((px - Localizer.x_center_line py) / Localizer.TRANSITION_SCALE) := by
  simp only [Localizer.localizer_diff, Localizer.localizer_90_strength,
    Localizer.localizer_150_strength, neg_div, Real.tanh_neg]
  ring

theorem glideslope_diff_eq (px py : ℝ) :
    Glideslope.glideslope_diff px py
      = -Real.tanh ((py - Glideslope.y_middle_line px) / Glideslope.TRANSITION_SCALE) := by
  simp only [Glideslope.glideslope_diff, Glideslope.signal_strength_90hz,
    Glideslope.signal_strength_150hz, neg_div, Real.tanh_neg]
  ring

theorem localizer_diff_offset (py d : ℝ) :
    Localizer.localizer_diff (Localizer.x_center_line py + d) py
      = -Real.tanh (d / Localizer.TRANSITION_SCALE) := by
  rw [localizer_diff_eq]
  congr 2
  ring

theorem glideslope_diff_offset (px d : ℝ) :
    Glideslope.glideslope_diff px (Glideslope.y_middle_line px + d)
      = -Real.tanh (d / Glideslope.TRANSITION_SCALE) := by
  rw [glideslope_diff_eq]
  congr 2
  ring

/-! ### Lemmas about the VOR wrap/unwrap pipeline -/

theorem wrapToPi_eq_self {x : ℝ} (h1 : -Real.pi < x) (h2 : x ≤ Real.pi) :
    VOR.wrapToPi x = x := by
  have hpi := Real.pi_pos
  have hk : ⌈x / (2 * Real.pi) - 1 / 2⌉ = 0 := by
    rw [Int.ceil_eq_zero_iff, Set.mem_Ioc]
    constructor
    · have ha : -(1 / 2 : ℝ) < x / (2 * Real.pi) := by
        rw [lt_div_iff Real.two_pi_pos]
        linarith
      linarith
    · have hb : x / (2 * Real.pi) ≤ 1 / 2 := by
        rw [div_le_iff Real.two_pi_pos]
        linarith
      linarith
  rw [VOR.wrapToPi, hk]
  simp

theorem wrapToPi_add_int_mul (x : ℝ) (k : ℤ) :
    VOR.wrapToPi (x + 2 * Real.pi * k) = VOR.wrapToPi x := by
  have h2pi : (2 * Real.pi : ℝ) ≠ 0 := ne_of_gt Real.two_pi_pos
  have harg : (x + 2 * Real.pi * k) / (2 * Real.pi) - 1 / 2
      = x / (2 * Real.pi) - 1 / 2 + k := by
    field_simp
    ring
  rw [VOR.wrapToPi, VOR.wrapToPi, harg, Int.ceil_add_int]
  push_cast
  ring

theorem wrapToPi_eq_sub (x : ℝ) : ∃ k : ℤ, VOR.wrapToPi x = x - 2 * Real.pi * k :=
  ⟨⌈x / (2 * Real.pi) - 1 / 2⌉, rfl⟩

/-- Unwrapping a sequence of wrapped samples of the linear phase
`θ₀ + n·δ` recovers that linear phase up to the wrap of its first sample,
provided the per-sample increment `δ` lies in `(-π, π]`. -/
theorem unwrap_wrap_linear (θ₀ δ : ℝ) (h1 : -Real.pi < δ) (h2 : δ ≤ Real.pi) :
    ∀ n : ℕ, VOR.unwrap (fun m : ℕ => VOR.wrapToPi (θ₀ + m * δ)) n
      = VOR.wrapToPi θ₀ + n * δ := by
  intro n
  induction n with
  | zero =>
    show VOR.wrapToPi (θ₀ + (0 : ℕ) * δ) = VOR.wrapToPi θ₀ + (0 : ℕ) * δ
    simp
  | succ n ih =>
    show VOR.unwrap _ n + VOR.wrapToPi _ = _
    rw [ih]
    have hstep : VOR.wrapToPi (VOR.wrapToPi (θ₀ + (n + 1 : ℕ) * δ)
        - VOR.wrapToPi (θ₀ + n * δ)) = δ := by
      obtain ⟨ka, hka⟩ := wrapToPi_eq_sub (θ₀ + (n + 1 : ℕ) * δ)
      obtain ⟨kb, hkb⟩ := wrapToPi_eq_sub (θ₀ + n * δ)
      have hd : VOR.wrapToPi (θ₀ + (n + 1 : ℕ) * δ) - VOR.wrapToPi (θ₀ + n * δ)
          = δ + 2 * Real.pi * ((kb - ka : ℤ) : ℝ) := by
        rw [hka, hkb]
        push_cast
        ring
      rw [hd, wrapToPi_add_int_mul δ (kb - ka), wrapToPi_eq_self h1 h2]
    rw [hstep]
    push_cast
    ring

theorem fmod_sub_int_mul (x y : ℝ) (k : ℤ) (hy : y ≠ 0) :
    VOR.fmod (x - y * k) y = VOR.fmod x y := by
  have harg : (x - y * k) / y = x / y - k := by
    field_simp
  rw [VOR.fmod, VOR.fmod, harg, Int.floor_sub_int]
  push_cast
  ring

theorem fmod_mem {y : ℝ} (x : ℝ) (hy : 0 < y) :
    0 ≤ VOR.fmod x y ∧ VOR.fmod x y < y := by
  have h1 : ((⌊x / y⌋ : ℤ) : ℝ) ≤ x / y := Int.floor_le _
  have h2 : x / y < (⌊x / y⌋ : ℤ) + 1 := Int.lt_floor_add_one _
  have h3 : x / y * y = x := div_mul_cancel₀ x (ne_of_gt hy)
  rw [VOR.fmod]
  constructor
  · nlinarith [mul_le_mul_of_nonneg_right h1 hy.le]
  · nlinarith [mul_lt_mul_of_pos_right h2 hy]

theorem fmod_eq_self {x y : ℝ} (hy : 0 < y) (h0 : 0 ≤ x) (h1 : x < y) :
    VOR.fmod x y = x := by
  have hfl : ⌊x / y⌋ = 0 := by
    rw [Int.floor_eq_zero_iff, Set.mem_Ico]
    constructor
    · positivity
    · rw [div_lt_one hy]
      exact h1
  rw [VOR.fmod, hfl]
  simp

/-- The wrapped instantaneous phases of the two tones are wrapped samples of
linear phases with common per-sample increment `3π/50`. -/
theorem ref_angle_eq (n : ℕ) :
    VOR.ref_angle n = VOR.wrapToPi (-(Real.pi / 2) + n * (3 * Real.pi / 50)) := by
  simp only [VOR.ref_angle, VOR.analyticAngle, VOR.t, VOR.f_mod, VOR.duration, VOR.numSamples]
  congr 1
  push_cast
  ring

theorem var_angle_eq (az : ℝ) (n : ℕ) :
    VOR.var_angle az n = VOR.wrapToPi ((az - Real.pi / 2) + n * (3 * Real.pi / 50)) := by
  simp only [VOR.var_angle, VOR.analyticAngle, VOR.t, VOR.f_mod, VOR.duration, VOR.numSamples]
  congr 1
  push_cast
  ring

/-- The per-sample unwrapped phase difference is the constant
`wrapToPi (az - π/2) + π/2`, independent of the sample index. -/
theorem phase_diff_const (az : ℝ) (n : ℕ) :
    VOR.unwrap (VOR.var_angle az) n - VOR.unwrap VOR.ref_angle n
      = VOR.wrapToPi (az - Real.pi / 2) + Real.pi / 2 := by
  have hpi := Real.pi_pos
  have hδ1 : -Real.pi < 3 * Real.pi / 50 := by linarith
  have hδ2 : 3 * Real.pi / 50 ≤ Real.pi := by linarith
  have hvar : VOR.var_angle az = fun m : ℕ =>
      VOR.wrapToPi ((az - Real.pi / 2) + m * (3 * Real.pi / 50)) := funext (var_angle_eq az)
  have href : VOR.ref_angle = fun m : ℕ =>
      VOR.wrapToPi ((-(Real.pi / 2)) + m * (3 * Real.pi / 50)) := funext ref_angle_eq
  have h0 : VOR.wrapToPi (-(Real.pi / 2)) = -(Real.pi / 2) :=
    wrapToPi_eq_self (by linarith) (by linarith)
  rw [hvar, href, unwrap_wrap_linear _ _ hδ1 hδ2, unwrap_wrap_linear _ _ hδ1 hδ2, h0]
  ring

/-- On every true bearing the full VOR pipeline is exact in the idealized
embedding: the computed azimuth equals the bearing reduced modulo 360. -/
theorem azimuth_roundtrip_exact (b : ℝ) :
    VOR.computed_azimuth_deg b = VOR.fmod b 360 := by
  have hpi := Real.pi_pos
  have hmean : (∑ n ∈ Finset.range VOR.numSamples,
      (VOR.unwrap (VOR.var_angle (VOR.deg2rad b)) n - VOR.unwrap VOR.ref_angle n))
        / (VOR.numSamples : ℝ)
      = VOR.wrapToPi (VOR.deg2rad b - Real.pi / 2) + Real.pi / 2 := by
    rw [Finset.sum_congr rfl fun n _ => phase_diff_const (VOR.deg2rad b) n,
      Finset.sum_const, Finset.card_range, nsmul_eq_mul]
    rw [show ((VOR.numSamples : ℕ) : ℝ) = 1000 from by norm_num [VOR.numSamples]]
    ring
  rw [VOR.computed_azimuth_deg, VOR.decode, hmean]
  obtain ⟨K, hK⟩ := wrapToPi_eq_sub (VOR.deg2rad b - Real.pi / 2)
  rw [hK]
  have hdeg : VOR.rad2deg (VOR.deg2rad b - Real.pi / 2 - 2 * Real.pi * K + Real.pi / 2)
      = b - 360 * K := by
    rw [VOR.rad2deg, VOR.deg2rad]
    field_simp
    ring
  rw [hdeg, fmod_sub_int_mul b 360 K (by norm_num)]

/-! ### The claims -/

/-- C1: Ranging cancellation.  For every position `(px, py)` and station
`(dx, dy)` the geometric distance is non-negative, and for every processing
delay `reply_delay` the simulated measurement returns exactly that distance:
the station-added and receiver-subtracted delays cancel, so
`(2dK + P - P) / (2K) = d` independently of `P`; in particular the source's
`dme_measure_distance` (with `P = 50.0`) is exact. -/
theorem ranging_cancellation (reply_delay px py dx dy : ℝ) :
    DME.dme_measure_distance_delay reply_delay px py dx dy
        = DME.actual_distance_miles px py dx dy ∧
    0 ≤ DME.actual_distance_miles px py dx dy ∧
    DME.dme_measure_distance px py dx dy = DME.actual_distance_miles px py dx dy := by
  have h : ∀ r : ℝ, DME.dme_measure_distance_delay r px py dx dy
      = DME.actual_distance_miles px py dx dy := by
    intro r
    simp only [DME.dme_measure_distance_delay, DME.MICROSECS_PER_MILE_ROUNDTRIP]
    field_simp
    ring
  exact ⟨h reply_delay, Real.sqrt_nonneg _, h DME.DME_REPLY_DELAY_US⟩

/-- C3: Scheduler fixed phase, no catch-up.  Whenever `tick` is called with
`now >= time_of_next_ping`, exactly one measurement fires:
`last_measured_distance` becomes the fresh measurement, `last_ping_time`
becomes `now`, and `time_of_next_ping` advances by exactly one
`PING_INTERVAL` from its previous value — it is not resynced to `now`, so
even when `now` has jumped several intervals ahead only one interval is
added per call. -/
theorem scheduler_fixed_phase (s : DME.SimState) (now px py : ℝ)
    (h : s.time_of_next_ping ≤ now) :
    DME.tick s now px py =
      { last_measured_distance := DME.dme_measure_distance px py DME.DME_X DME.DME_Y
        last_ping_time := now
        time_of_next_ping := s.time_of_next_ping + DME.PING_INTERVAL } := by
  simp [DME.tick, h]

/-- Witness for C3: from the initial state (`time_of_next_ping = 3`), a call
at `now = 10` — more than three intervals late — fires one measurement and
advances `time_of_next_ping` to `6`, not to `12` or `13`. -/
theorem scheduler_fixed_phase_witness :
    DME.tick DME.initState 10 200 200 =
      { last_measured_distance := DME.dme_measure_distance 200 200 DME.DME_X DME.DME_Y
        last_ping_time := 10
        time_of_next_ping := 6 } := by
  have h := scheduler_fixed_phase DME.initState 10 200 200
    (by norm_num [DME.initState, DME.PING_INTERVAL])
  rw [h]
  simp [DME.initState, DME.PING_INTERVAL]
  norm_num

/-- C10: Frame property of `tick`.  When `now < time_of_next_ping` the whole
state is returned unchanged — no measurement fires and
`last_measured_distance`, `last_ping_time` and `time_of_next_ping` keep
their values; moreover the initial `last_measured_distance` is `0.0`, which
is exactly the value a genuine zero-distance measurement (receiver
co-located with the station) would produce. -/
theorem tick_frame (s : DME.SimState) (now px py : ℝ)
    (h : now < s.time_of_next_ping) :
    DME.tick s now px py = s ∧
    DME.initState.last_measured_distance = 0 ∧
    ∀ qx qy : ℝ,
      DME.dme_measure_distance qx qy qx qy = DME.initState.last_measured_distance := by
  have h0 : DME.initState.last_measured_distance = 0 := by norm_num [DME.initState]
  refine ⟨?_, h0, ?_⟩
  · simp [DME.tick, not_le.mpr h]
  · intro qx qy
    rw [h0]
    simp only [DME.dme_measure_distance, DME.dme_measure_distance_delay,
      DME.actual_distance_miles]
    norm_num

/-- Witness for C10: before the first due time (`now = 1 < 3`) the initial
state is untouched, and a zero-distance measurement indeed returns `0`,
indistinguishable from the initial reading. -/
theorem tick_frame_witness :
    DME.tick DME.initState 1 200 200 = DME.initState ∧
    DME.dme_measure_distance 600 300 600 300 = 0 := by
  have h := tick_frame DME.initState 1 200 200
    (by norm_num [DME.initState, DME.PING_INTERVAL])
  exact ⟨h.1, (h.2.2 600 300).trans h.2.1⟩

/-- C2: Azimuth round-trip.  For each true bearing in
`{0°, 45°, 90°, 180°, 270°, 359°}`, encoding it as the phase offset between
the two 30 Hz tones and decoding through the analytic-signal /
unwrap / mean / degrees / modulo pipeline returns a value within 1° of the
bearing modulo 360 (in the idealized embedding the round trip is exact). -/
theorem azimuth_roundtrip :
    |VOR.computed_azimuth_deg 0 - 0| ≤ 1 ∧
    |VOR.computed_azimuth_deg 45 - 45| ≤ 1 ∧
    |VOR.computed_azimuth_deg 90 - 90| ≤ 1 ∧
    |VOR.computed_azimuth_deg 180 - 180| ≤ 1 ∧
    |VOR.computed_azimuth_deg 270 - 270| ≤ 1 ∧
    |VOR.computed_azimuth_deg 359 - 359| ≤ 1 := by
  have h : ∀ b : ℝ, 0 ≤ b → b < 360 → |VOR.computed_azimuth_deg b - b| ≤ 1 := by
    intro b h0 h1
    rw [azimuth_roundtrip_exact, fmod_eq_self (by norm_num) h0 h1]
    simp
  exact ⟨h 0 (by norm_num) (by norm_num), h 45 (by norm_num) (by norm_num),
    h 90 (by norm_num) (by norm_num), h 180 (by norm_num) (by norm_num),
    h 270 (by norm_num) (by norm_num), h 359 (by norm_num) (by norm_num)⟩

/-- C7: Decoded azimuth range.  For every pair of equal-length per-sample
phase sequences extractable from real-valued input waveforms (arbitrary real
sequences, of any positive common length), the decoded bearing — degrees of
the mean unwrapped phase difference, reduced by the float modulo — lies in
`[0, 360)`. -/
theorem decoded_azimuth_range (refA varA : ℕ → ℝ) (N : ℕ) (h : 0 < N) :
    0 ≤ VOR.decode refA varA N ∧ VOR.decode refA varA N < 360 := by
  rw [VOR.decode]
  exact fmod_mem _ (by norm_num)

/-- Witness for C7: two zero phase sequences of length 1 decode to a value in
`[0, 360)`. -/
theorem decoded_azimuth_range_witness :
    0 < 1 ∧ (0 ≤ VOR.decode (fun _ => 0) (fun _ => 0) 1 ∧
      VOR.decode (fun _ => 0) (fun _ => 0) 1 < 360) :=
  ⟨by norm_num, decoded_azimuth_range (fun _ => 0) (fun _ => 0) 1 (by norm_num)⟩

/-- C4: Lobe complementarity.  For every position, the 90 Hz and 150 Hz lobe
strengths are each strictly between 0 and 1, sum to exactly 1, and are both
exactly `0.5` on the centerline — for the localizer and the glideslope
instantiation alike. -/
theorem lobe_complementarity (px py : ℝ) :
    (0 < Localizer.localizer_90_strength px py ∧ Localizer.localizer_90_strength px py < 1) ∧
    (0 < Localizer.localizer_150_strength px py ∧ Localizer.localizer_150_strength px py < 1) ∧
    Localizer.localizer_90_strength px py + Localizer.localizer_150_strength px py = 1 ∧
    (px = Localizer.x_center_line py →
      Localizer.localizer_90_strength px py = 0.5 ∧
      Localizer.localizer_150_strength px py = 0.5) ∧
    (0 < Glideslope.signal_strength_90hz px py ∧ Glideslope.signal_strength_90hz px py < 1) ∧
    (0 < Glideslope.signal_strength_150hz px py ∧ Glideslope.signal_strength_150hz px py < 1) ∧
    Glideslope.signal_strength_90hz px py + Glideslope.signal_strength_150hz px py = 1 ∧
    (py = Glideslope.y_middle_line px →
      Glideslope.signal_strength_90hz px py = 0.5 ∧
      Glideslope.signal_strength_150hz px py = 0.5) := by
  refine ⟨strength_bounds _, strength_bounds _, ?_, ?_, strength_bounds _, strength_bounds _,
    ?_, ?_⟩
  · simp only [Localizer.localizer_90_strength, Localizer.localizer_150_strength, neg_div,
      Real.tanh_neg]
    ring
  · intro hc
    simp [Localizer.localizer_90_strength, Localizer.localizer_150_strength, hc,
      Real.tanh_zero]
  · simp only [Glideslope.signal_strength_90hz, Glideslope.signal_strength_150hz, neg_div,
      Real.tanh_neg]
    ring
  · intro hc
    simp [Glideslope.signal_strength_90hz, Glideslope.signal_strength_150hz, hc,
      Real.tanh_zero]

/-- Witness for C4: at `(400, 0)` the point is on the localizer centerline
(`x_center_line 0 = 400`) and both localizer lobes read exactly `0.5`; at
`(700, 500)` the point is on the glideslope centerline
(`y_middle_line 700 = 500`) and both glideslope lobes read exactly `0.5`. -/
theorem lobe_complementarity_witness :
    Localizer.localizer_90_strength 400 0 = 0.5 ∧
    Localizer.localizer_150_strength 400 0 = 0.5 ∧
    Glideslope.signal_strength_90hz 700 500 = 0.5 ∧
    Glideslope.signal_strength_150hz 700 500 = 0.5 := by
  have h1 := (lobe_complementarity 400 0).2.2.2.1 (Localizer.x_center_line_eq 0).symm
  have h2 := (lobe_complementarity 700 500).2.2.2.2.2.2.2
    Glideslope.y_middle_line_at_threshold.symm
  exact ⟨h1.1, h1.2, h2.1, h2.2⟩

/-- C6: Deviation centerline zero.  For every position exactly on the
reference line the deviation is exactly 0: `localizer_diff px py = 0`
whenever `px = x_center_line py`, and `glideslope_diff px py = 0` whenever
`py = y_middle_line px`. -/
theorem deviation_centerline_zero (px py : ℝ) :
    (px = Localizer.x_center_line py → Localizer.localizer_diff px py = 0) ∧
    (py = Glideslope.y_middle_line px → Glideslope.glideslope_diff px py = 0) := by
  constructor
  · intro hc
    rw [localizer_diff_eq, hc]
    simp [Real.tanh_zero]
  · intro hc
    rw [glideslope_diff_eq, hc]
    simp [Real.tanh_zero]

/-- Witness for C6: the point `(400, 0)` lies on the localizer centerline and
its deviation is 0; the point `(700, 500)` lies on the glideslope centerline
and its deviation is 0. -/
theorem deviation_centerline_zero_witness :
    Localizer.localizer_diff 400 0 = 0 ∧ Glideslope.glideslope_diff 700 500 = 0 :=
  ⟨(deviation_centerline_zero 400 0).1 (Localizer.x_center_line_eq 0).symm,
   (deviation_centerline_zero 700 500).2 Glideslope.y_middle_line_at_threshold.symm⟩

/-- C5: Deviation bound, monotonicity and saturation.  For every position
the deviation lies strictly within `(-1, 1)`; as a function of the signed
perpendicular offset from the centerline it is strictly monotone (decreasing,
per the source's sign convention `s90 - s150`); its magnitude strictly
increases with the magnitude of the offset while staying below 1; and the
clamped dial deflection always lies in `[-1, 1]`.  Both the localizer and
the glideslope instantiations are covered. -/
theorem deviation_bound_mono_saturation :
    (∀ px py : ℝ, -1 < Localizer.localizer_diff px py ∧ Localizer.localizer_diff px py < 1) ∧
    (∀ py d₁ d₂ : ℝ, d₁ < d₂ →
      Localizer.localizer_diff (Localizer.x_center_line py + d₂) py
        < Localizer.localizer_diff (Localizer.x_center_line py + d₁) py) ∧
    (∀ py d₁ d₂ : ℝ, |d₁| < |d₂| →
      |Localizer.localizer_diff (Localizer.x_center_line py + d₁) py|
        < |Localizer.localizer_diff (Localizer.x_center_line py + d₂) py|) ∧
    (∀ x : ℝ, -1 ≤ Localizer.clamp_deflection x ∧ Localizer.clamp_deflection x ≤ 1) ∧
    (∀ px py : ℝ, -1 < Glideslope.glideslope_diff px py ∧ Glideslope.glideslope_diff px py < 1) ∧
    (∀ px d₁ d₂ : ℝ, d₁ < d₂ →
      Glideslope.glideslope_diff px (Glideslope.y_middle_line px + d₂)
        < Glideslope.glideslope_diff px (Glideslope.y_middle_line px + d₁)) ∧
    (∀ px d₁ d₂ : ℝ, |d₁| < |d₂| →
      |Glideslope.glideslope_diff px (Glideslope.y_middle_line px + d₁)|
        < |Glideslope.glideslope_diff px (Glideslope.y_middle_line px + d₂)|) ∧
    (∀ x : ℝ, -1 ≤ Glideslope.clamp_deflection x ∧ Glideslope.clamp_deflection x ≤ 1) := by
  have hSl : (0 : ℝ) < Localizer.TRANSITION_SCALE := by norm_num [Localizer.TRANSITION_SCALE]
  have hSg : (0 : ℝ) < Glideslope.TRANSITION_SCALE := by norm_num [Glideslope.TRANSITION_SCALE]
  have habs : ∀ S d : ℝ, 0 < S → |(-Real.tanh (d / S))| = Real.tanh (|d| / S) := by
    intro S d hS
    rw [abs_neg, abs_tanh, abs_div, abs_of_pos hS]
  have hclamp : ∀ x : ℝ, -1 ≤ max (-1.0) (min 1.0 x) ∧ max (-1.0) (min 1.0 x) ≤ 1 := by
    intro x
    constructor
    · calc (-1 : ℝ) = -1.0 := by norm_num
        _ ≤ max (-1.0) (min 1.0 x) := le_max_left _ _
    · apply max_le (by norm_num)
      calc min 1.0 x ≤ 1.0 := min_le_left _ _
        _ = 1 := by norm_num
  refine ⟨?_, ?_, ?_, hclamp, ?_, ?_, ?_, hclamp⟩
  · intro px py
    rw [localizer_diff_eq]
    have h1 := neg_one_lt_tanh ((px - Localizer.x_center_line py) / Localizer.TRANSITION_SCALE)
    have h2 := tanh_lt_one ((px - Localizer.x_center_line py) / Localizer.TRANSITION_SCALE)
    constructor <;> linarith
  · intro py d₁ d₂ hd
    rw [localizer_diff_offset, localizer_diff_offset, neg_lt_neg_iff]
    exact tanh_strictMono ((div_lt_div_iff_of_pos_right hSl).mpr hd)
  · intro py d₁ d₂ hd
    rw [localizer_diff_offset, localizer_diff_offset, habs _ _ hSl, habs _ _ hSl]
    exact tanh_strictMono ((div_lt_div_iff_of_pos_right hSl).mpr hd)
  · intro px py
    rw [glideslope_diff_eq]
    have h1 := neg_one_lt_tanh ((py - Glideslope.y_middle_line px) / Glideslope.TRANSITION_SCALE)
    have h2 := tanh_lt_one ((py - Glideslope.y_middle_line px) / Glideslope.TRANSITION_SCALE)
    constructor <;> linarith
  · intro px d₁ d₂ hd
    rw [glideslope_diff_offset, glideslope_diff_offset, neg_lt_neg_iff]
    exact tanh_strictMono ((div_lt_div_iff_of_pos_right hSg).mpr hd)
  · intro px d₁ d₂ hd
    rw [glideslope_diff_offset, glideslope_diff_offset, habs _ _ hSg, habs _ _ hSg]
    exact tanh_strictMono ((div_lt_div_iff_of_pos_right hSg).mpr hd)

/-- Witness for C5: concrete instances — the localizer deviation at offset 30
is below the one at offset 10, its magnitude at offset 10 is below the one at
offset 30, the deviation at `(420, 0)` is strictly inside `(-1, 1)`, the
clamp of `5` is within `[-1, 1]`, and the glideslope analogues at offsets 10
and 30 behave the same way. -/
theorem deviation_bound_mono_saturation_witness :
    Localizer.localizer_diff (Localizer.x_center_line 0 + 30) 0
      < Localizer.localizer_diff (Localizer.x_center_line 0 + 10) 0 ∧
    |Localizer.localizer_diff (Localizer.x_center_line 0 + 10) 0|
      < |Localizer.localizer_diff (Localizer.x_center_line 0 + 30) 0| ∧
    (-1 < Localizer.localizer_diff 420 0 ∧ Localizer.localizer_diff 420 0 < 1) ∧
    (-1 ≤ Localizer.clamp_deflection 5 ∧ Localizer.clamp_deflection 5 ≤ 1) ∧
    Glideslope.glideslope_diff 100 (Glideslope.y_middle_line 100 + 30)
      < Glideslope.glideslope_diff 100 (Glideslope.y_middle_line 100 + 10) ∧
    (-1 < Glideslope.glideslope_diff 100 260 ∧ Glideslope.glideslope_diff 100 260 < 1) := by
  have h := deviation_bound_mono_saturation
  have habs10 : |(10 : ℝ)| < |(30 : ℝ)| := by
    rw [abs_of_nonneg (by norm_num : (0:ℝ) ≤ 10), abs_of_nonneg (by norm_num : (0:ℝ) ≤ 30)]
    norm_num
  exact ⟨h.2.1 0 10 30 (by norm_num), h.2.2.1 0 10 30 habs10, h.1 420 0,
    h.2.2.2.1 5, h.2.2.2.2.2.1 100 10 30 (by norm_num), h.2.2.2.2.1 100 260⟩

/-- C9: Epsilon-guarded ratio.  For every position the denominator
`s90 + 1e-6` of the color-blending ratio is strictly positive (indeed
`s90 > 0` already), so the division is defined everywhere:
`ratio * (s90 + 1e-6) = s150` holds exactly, for the localizer and the
glideslope background computations. -/
theorem ratio_denominator_pos (x y : ℝ) :
    0 < Localizer.localizer_90_strength x y + 1e-6 ∧
    Localizer.localizer_ratio x y * (Localizer.localizer_90_strength x y + 1e-6)
      = Localizer.localizer_150_strength x y ∧
    0 < Glideslope.signal_strength_90hz x y + 1e-6 ∧
    Glideslope.glideslope_ratio x y * (Glideslope.signal_strength_90hz x y + 1e-6)
      = Glideslope.signal_strength_150hz x y := by
  have h1 : 0 < Localizer.localizer_90_strength x y := (strength_bounds _).1
  have h2 : 0 < Glideslope.signal_strength_90hz x y := (strength_bounds _).1
  have h1e : (0 : ℝ) < 1e-6 := by norm_num
  refine ⟨by linarith, ?_, by linarith, ?_⟩
  · exact div_mul_cancel₀ _ (by linarith)
  · exact div_mul_cancel₀ _ (by linarith)

/-- C8, counterexample.  The source contains no construction-time validation
at all: the lobe-strength formula consumes whatever `transition_scale` it is
given.  With the invalid scale `-1` at the concrete position `(401, 0)` it
silently returns the ordinary in-range value `0.5 + 0.5*tanh 1` instead of
failing with an invalid-configuration signal. -/
theorem no_failfast_counterexample :
    Localizer.localizer_90_strength_scale (-1) 401 0 = 0.5 + 0.5 * Real.tanh 1 ∧
    0 < Localizer.localizer_90_strength_scale (-1) 401 0 ∧
    Localizer.localizer_90_strength_scale (-1) 401 0 < 1 := by
  have heq : Localizer.localizer_90_strength_scale (-1) 401 0 = 0.5 + 0.5 * Real.tanh 1 := by
    simp only [Localizer.localizer_90_strength_scale, Localizer.x_center_line_eq]
    norm_num
  refine ⟨heq, ?_, ?_⟩ <;> rw [heq]
  · have h := neg_one_lt_tanh 1
    linarith
  · have h := tanh_lt_one 1
    linarith

/-- C8, amended.  No construction-time validation exists in the code; instead
every configuration constant is a fixed valid literal —
`TRANSITION_SCALE = 20.0` in both the localizer and the glideslope, and
`fs = 1000`, `duration = 1.0` in the VOR script — and the lobe formulas use
the fixed literal directly, so the malformed-configuration case never arises
and a non-positive scale, were it substituted, would be consumed silently. -/
theorem config_constants_valid :
    0 < Localizer.TRANSITION_SCALE ∧ 0 < Glideslope.TRANSITION_SCALE ∧
    0 < VOR.fs ∧ 0 < VOR.duration ∧
    ∀ px py : ℝ, Localizer.localizer_90_strength px py
        = Localizer.localizer_90_strength_scale Localizer.TRANSITION_SCALE px py := by
  refine ⟨by norm_num [Localizer.TRANSITION_SCALE], by norm_num [Glideslope.TRANSITION_SCALE],
    by norm_num [VOR.fs], by norm_num [VOR.duration], fun px py => rfl⟩

end ILSsims

end
